import Mathlib

/-!
A verification development for the `serde-save` crate: a shallow embedding of
the `Save` serialization-tree data model (`src/lib.rs`) and of the capturing
serializer with its two error disciplines (`src/imp.rs`), together with proofs
of the documented behavioural properties.

Modelling conventions:
* Rust `&'a str` / `String` become `String`.
* Machine integers become `Int` (signed) / `Nat` (unsigned); the serializer only
  transports them, so widths are irrelevant to every property proved here.
* `f32` / `f64` payloads are carried as their raw `Nat` bit patterns; the
  serializer only transports them.
* Rust `Result<T, Error>` becomes `Except Error T`.
-/

namespace SerdeSave

/-- `Error` from `src/lib.rs`: a message plus a flag recording whether the
error was a protocol error (raised by the serializer itself). -/
structure Error where
  msg : String
  protocol : Bool
deriving DecidableEq, Repr

/-- `Error::is_protocol` from `src/lib.rs`. -/
def Error.is_protocol (e : Error) : Bool :=
  e.protocol

/-- `serde::ser::Error::custom` as implemented for `Error` in `src/lib.rs`:
wraps a display string with `protocol: false`. -/
def Error.custom (msg : String) : Error :=
  ⟨msg, false⟩

/-- `Variant` from `src/lib.rs`: information about a serialized enum variant. -/
structure Variant where
  name : String
  variant_index : Nat
  variant : String
deriving DecidableEq, Repr

/-- The serializer configuration (`Config` in `src/imp.rs`), minus the
phantom error-discipline parameter which we pass explicitly. -/
structure Config where
  is_human_readable : Bool
  protocol_errors : Bool
deriving DecidableEq, Repr

/-- `Save` from `src/lib.rs`: the complete serde serialization tree,
parameterized by the error payload type `E` (uninhabited under the
short-circuiting discipline, `Error` under the persisting one). -/
inductive Save (E : Type) : Type where
  | Bool (b : Bool)
  | I8 (n : Int)
  | I16 (n : Int)
  | I32 (n : Int)
  | I64 (n : Int)
  | I128 (n : Int)
  | U8 (n : Nat)
  | U16 (n : Nat)
  | U32 (n : Nat)
  | U64 (n : Nat)
  | U128 (n : Nat)
  | F32 (bits : Nat)
  | F64 (bits : Nat)
  | Char (c : Char)
  | String (s : String)
  | ByteArray (bytes : List Nat)
  | Option (o : Option (Save E))
  | Unit
  | UnitStruct (name : String)
  | UnitVariant (v : Variant)
  | NewTypeStruct (name : String) (value : Save E)
  | NewTypeVariant (variant : Variant) (value : Save E)
  | Seq (items : List (Save E))
  | Map (entries : List (Save E × Save E))
  | Tuple (items : List (Save E))
  | TupleStruct (name : String) (values : List (Save E))
  | TupleVariant (variant : Variant) (values : List (Save E))
  | Struct (name : String) (fields : List (String × Option (Save E)))
  | StructVariant (variant : Variant) (fields : List (String × Option (Save E)))
  | Error (e : E)

/-- The `ErrorDiscipline` trait of `src/imp.rs`: an associated wrapped-error
type and a `handle` operation on serialization results. -/
structure Discipline where
  SaveError : Type
  handle : Except Error (Save SaveError) → Except Error (Save SaveError)

/-- `impl ErrorDiscipline for ShortCircuit` (`src/imp.rs`): the wrapped error
type is uninhabited and `handle` passes results through unchanged. -/
def ShortCircuitD : Discipline where
  SaveError := Empty
  handle := fun res => res

/-- `impl ErrorDiscipline for Persist` (`src/imp.rs`): the wrapped error type
is `Error` and `handle` turns failures into in-tree `Save.Error` nodes
(`res.unwrap_or_else(Save::Error)`). -/
def PersistD : Discipline where
  SaveError := Error
  handle := fun res =>
    .ok (match res with
      | .ok s => s
      | .error e => .Error e)

/-- `Serializer::new()` (`src/imp.rs`): human readable, protocol checks on.
The serializer's only state is its configuration, so we model it as `Config`. -/
def Serializer.new : Config :=
  { is_human_readable := true, protocol_errors := true }

/-- `check_length` from `src/imp.rs`: when protocol checking is enabled and the
declared length disagrees with the number of pushed elements, append one
error-handled synthetic element carrying the protocol-error message. -/
def check_length (what : String) (D : Discipline) (cfg : Config) (expected : Nat)
    (pushing : List (Save D.SaveError)) : Except Error (List (Save D.SaveError)) :=
  if cfg.protocol_errors then
    let actual := pushing.length
    if expected ≠ actual then do
      let e : Error :=
        ⟨s!"protocol error: expected a {what} of length {expected}, got {actual}", true⟩
      let v ← D.handle (.error e)
      .ok (pushing ++ [v])
    else .ok pushing
  else .ok pushing

/-- `SerializeSeq::end` from `src/imp.rs`: run the length check only when a
length hint was supplied, then emit the `Seq` node. -/
def seqEnd (D : Discipline) (cfg : Config) (expected_len : Option Nat)
    (inner : List (Save D.SaveError)) : Except Error (Save D.SaveError) := do
  let inner ←
    match expected_len with
    | .some n => check_length "sequence" D cfg n inner
    | .none => pure inner
  .ok (.Seq inner)

/-- `SerializeTuple::end` from `src/imp.rs`: always run the length check
(the declared length is mandatory), then emit the `Tuple` node. -/
def tupleEnd (D : Discipline) (cfg : Config) (expected_len : Nat)
    (inner : List (Save D.SaveError)) : Except Error (Save D.SaveError) := do
  let inner ← check_length "tuple" D cfg expected_len inner
  .ok (.Tuple inner)

/-- `SerializeTupleStruct::end` from `src/imp.rs`. -/
def tupleStructEnd (D : Discipline) (cfg : Config) (name : String) (expected_len : Nat)
    (values : List (Save D.SaveError)) : Except Error (Save D.SaveError) := do
  let values ← check_length "tuple struct" D cfg expected_len values
  .ok (.TupleStruct name values)

/-- `SerializeTupleVariant::end` from `src/imp.rs`. -/
def tupleVariantEnd (D : Discipline) (cfg : Config) (variant : Variant) (expected_len : Nat)
    (values : List (Save D.SaveError)) : Except Error (Save D.SaveError) := do
  let values ← check_length "tuple variant" D cfg expected_len values
  .ok (.TupleVariant variant values)

/-- The pair-zipping loop of `SerializeMap::end` (`src/imp.rs`): zip the key
and value buffers positionally; whenever one side is exhausted, fill the
missing side with the error-handled orphan error `e` (which the source
computes from the *original* buffer lengths, so it is a fixed argument here).
Note this filling does not consult `protocol_errors`. -/
def mapZip (D : Discipline) (e : Error) :
    List (Save D.SaveError) → List (Save D.SaveError) →
    Except Error (List (Save D.SaveError × Save D.SaveError))
  | [], [] => .ok []
  | k :: ks, v :: vs => do
    let rest ← mapZip D e ks vs
    .ok ((k, v) :: rest)
  | [], v :: vs => do
    let k ← D.handle (.error e)
    let rest ← mapZip D e [] vs
    .ok ((k, v) :: rest)
  | k :: ks, [] => do
    let v ← D.handle (.error e)
    let rest ← mapZip D e ks []
    .ok ((k, v) :: rest)

/-- The orphaned key/value protocol error of `SerializeMap::end`
(`src/imp.rs`), built from the lengths of the two push buffers. -/
def mapOrphanError (n_keys n_values : Nat) : Error :=
  ⟨s!"protocol error: map has {n_keys} keys and {n_values} values", true⟩

/-- `SerializeMap::end` from `src/imp.rs`: zip the two push buffers (filling
orphaned keys/values with synthetic protocol errors regardless of the
`protocol_errors` flag), then — only if a length hint was supplied *and*
protocol checking is enabled — append one further synthetic pair when the
declared length disagrees with the zipped pair count. -/
def mapEnd (D : Discipline) (cfg : Config) (expected_len : Option Nat)
    (keys values : List (Save D.SaveError)) : Except Error (Save D.SaveError) := do
  let m ← mapZip D (mapOrphanError keys.length values.length) keys values
  match expected_len with
  | .some expected =>
    if cfg.protocol_errors then
      if expected ≠ m.length then do
        let n_pairs := m.length
        let e2 : Error :=
          ⟨s!"protocol error: expected a map of length {expected}, got {n_pairs}", true⟩
        let k ← D.handle (.error e2)
        let v ← D.handle (.error e2)
        .ok (.Map (m ++ [(k, v)]))
      else .ok (.Map m)
    else .ok (.Map m)
  | .none => .ok (.Map m)

/-- The duplicate scan of `check` in `src/imp.rs`: walk the field names with a
seen-set, recording (in encounter order) every name whose insertion reports it
as already present. -/
def dupScan (seen : List String) : List String → List String
  | [] => []
  | n :: rest => if n ∈ seen then n :: dupScan seen rest else dupScan (n :: seen) rest

/-- `check` from `src/imp.rs` (used by both struct and struct-variant `end`):
when protocol checking is enabled, (1) append a `"!error"` entry listing any
duplicate field names, then (2) append a second `"!error"` entry if the
declared length disagrees with the (possibly already extended) entry count. -/
def structCheck (what : String) (D : Discipline) (cfg : Config) (expected_len : Nat)
    (fields : List (String × Option (Save D.SaveError))) :
    Except Error (List (String × Option (Save D.SaveError))) := do
  if cfg.protocol_errors then
    let dups := dupScan [] (fields.map Prod.fst)
    let fields1 ←
      if dups.isEmpty then pure fields
      else do
        let joined := String.intercalate ", " dups
        let e : Error := ⟨s!"protocol error: {what} has duplicate field names: {joined}", true⟩
        let v ← D.handle (.error e)
        pure (fields ++ [("!error", .some v)])
    let actual := fields1.length
    if expected_len ≠ actual then do
      let e : Error :=
        ⟨s!"protocol error: expected a {what} of length {expected_len}, got {actual}", true⟩
      let v ← D.handle (.error e)
      .ok (fields1 ++ [("!error", .some v)])
    else .ok fields1
  else .ok fields

/-- `SerializeStruct::end` from `src/imp.rs`. -/
def structEnd (D : Discipline) (cfg : Config) (name : String) (expected_len : Nat)
    (fields : List (String × Option (Save D.SaveError))) :
    Except Error (Save D.SaveError) := do
  let fields ← structCheck "struct" D cfg expected_len fields
  .ok (.Struct name fields)

/-- `SerializeStructVariant::end` from `src/imp.rs` (note the source passes
`"struct"` as the kind label here as well). -/
def structVariantEnd (D : Discipline) (cfg : Config) (variant : Variant) (expected_len : Nat)
    (fields : List (String × Option (Save D.SaveError))) :
    Except Error (Save D.SaveError) := do
  let fields ← structCheck "struct" D cfg expected_len fields
  .ok (.StructVariant variant fields)

/-- A producer: the complete call sequence that a `serde::Serialize`
implementation makes against a serializer. Aggregate constructors carry the
declared length (hint) and the pushes made on the returned builder, in order.
A map builder's pushes are tagged: `(true, p)` is `serialize_key(p)`,
`(false, p)` is `serialize_value(p)`, in call order. A struct entry
`(name, some p)` is `serialize_field(name, p)`; `(name, none)` is
`skip_field(name)` (which carries no value at all, mirroring the source).
`fail msg` is a producer whose own `serialize` returns `Err(Error::custom(msg))`.
`i128` / `u128` hit serde's *default* `serialize_i128` / `serialize_u128`
methods, which `src/imp.rs` does not override and which fail. -/
inductive Producer : Type where
  | bool (b : Bool)
  | i8 (n : Int)
  | i16 (n : Int)
  | i32 (n : Int)
  | i64 (n : Int)
  | i128 (n : Int)
  | u8 (n : Nat)
  | u16 (n : Nat)
  | u32 (n : Nat)
  | u64 (n : Nat)
  | u128 (n : Nat)
  | f32 (bits : Nat)
  | f64 (bits : Nat)
  | char (c : Char)
  | str (s : String)
  | collect_str (s : String)
  | bytes (bs : List Nat)
  | none
  | some (p : Producer)
  | unit
  | unit_struct (name : String)
  | unit_variant (v : Variant)
  | newtype_struct (name : String) (p : Producer)
  | newtype_variant (v : Variant) (p : Producer)
  | seq (len : Option Nat) (elems : List Producer)
  | tuple (len : Nat) (elems : List Producer)
  | tuple_struct (name : String) (len : Nat) (elems : List Producer)
  | tuple_variant (v : Variant) (len : Nat) (elems : List Producer)
  | map (len : Option Nat) (pushes : List (Bool × Producer))
  | strukt (name : String) (len : Nat) (entries : List (String × Option Producer))
  | struct_variant (v : Variant) (len : Nat) (entries : List (String × Option Producer))
  | fail (msg : String)

mutual

/-- Run a producer against the capturing serializer of `src/imp.rs` under
error discipline `D` with configuration `cfg`: each scalar method returns the
matching leaf; each aggregate method accumulates error-handled child results
(each child serialized with a fresh serializer sharing `cfg`) and finishes
with the corresponding `end` function. -/
def run (D : Discipline) (cfg : Config) : Producer → Except Error (Save D.SaveError)
  | .bool b => .ok (.Bool b)
  | .i8 n => .ok (.I8 n)
  | .i16 n => .ok (.I16 n)
  | .i32 n => .ok (.I32 n)
  | .i64 n => .ok (.I64 n)
  | .i128 _ => .error (Error.custom "i128 is not supported")
  | .u8 n => .ok (.U8 n)
  | .u16 n => .ok (.U16 n)
  | .u32 n => .ok (.U32 n)
  | .u64 n => .ok (.U64 n)
  | .u128 _ => .error (Error.custom "u128 is not supported")
  | .f32 bits => .ok (.F32 bits)
  | .f64 bits => .ok (.F64 bits)
  | .char c => .ok (.Char c)
  | .str s => .ok (.String s)
  | .collect_str s => .ok (.String s)
  | .bytes bs => .ok (.ByteArray bs)
  | .none => .ok (.Option .none)
  | .some p => do
    let v ← D.handle (run D cfg p)
    .ok (.Option (.some v))
  | .unit => .ok .Unit
  | .unit_struct name => .ok (.UnitStruct name)
  | .unit_variant v => .ok (.UnitVariant v)
  | .newtype_struct name p => do
    let v ← D.handle (run D cfg p)
    .ok (.NewTypeStruct name v)
  | .newtype_variant var p => do
    let v ← D.handle (run D cfg p)
    .ok (.NewTypeVariant var v)
  | .seq len elems => do
    let inner ← pushAll D cfg elems
    seqEnd D cfg len inner
  | .tuple len elems => do
    let inner ← pushAll D cfg elems
    tupleEnd D cfg len inner
  | .tuple_struct name len elems => do
    let inner ← pushAll D cfg elems
    tupleStructEnd D cfg name len inner
  | .tuple_variant var len elems => do
    let inner ← pushAll D cfg elems
    tupleVariantEnd D cfg var len inner
  | .map len pushes => do
    let kv ← mapPushAll D cfg pushes
    mapEnd D cfg len kv.1 kv.2
  | .strukt name len entries => do
    let fields ← fieldPushAll D cfg entries
    structEnd D cfg name len fields
  | .struct_variant var len entries => do
    let fields ← fieldPushAll D cfg entries
    structVariantEnd D cfg var len fields
  | .fail msg => .error (Error.custom msg)

/-- The element pushes of a seq/tuple/tuple-struct/tuple-variant builder:
each push appends the error-handled result of serializing the element with a
fresh serializer (`serialize_element` / `serialize_field` in `src/imp.rs`). -/
def pushAll (D : Discipline) (cfg : Config) :
    List Producer → Except Error (List (Save D.SaveError))
  | [] => .ok []
  | p :: ps => do
    let v ← D.handle (run D cfg p)
    let rest ← pushAll D cfg ps
    .ok (v :: rest)

/-- The key/value pushes of a map builder (`serialize_key` /
`serialize_value` in `src/imp.rs`): the two buffers grow independently, in
call order. -/
def mapPushAll (D : Discipline) (cfg : Config) :
    List (Bool × Producer) →
    Except Error (List (Save D.SaveError) × List (Save D.SaveError))
  | [] => .ok ([], [])
  | (true, p) :: rest => do
    let k ← D.handle (run D cfg p)
    let kv ← mapPushAll D cfg rest
    .ok (k :: kv.1, kv.2)
  | (false, p) :: rest => do
    let v ← D.handle (run D cfg p)
    let kv ← mapPushAll D cfg rest
    .ok (kv.1, v :: kv.2)

/-- The field pushes of a struct/struct-variant builder (`serialize_field` /
`skip_field` in `src/imp.rs`): a skipped field appends `(name, none)` without
serializing anything. -/
def fieldPushAll (D : Discipline) (cfg : Config) :
    List (String × Option Producer) →
    Except Error (List (String × Option (Save D.SaveError)))
  | [] => .ok []
  | (name, .none) :: rest => do
    let fs ← fieldPushAll D cfg rest
    .ok ((name, .none) :: fs)
  | (name, .some p) :: rest => do
    let v ← D.handle (run D cfg p)
    let fs ← fieldPushAll D cfg rest
    .ok ((name, .some v) :: fs)

end

/-- `save` from `src/lib.rs`: serialize with a fresh default serializer under
the short-circuiting discipline. -/
def save (p : Producer) : Except Error (Save ShortCircuitD.SaveError) :=
  run ShortCircuitD Serializer.new p

/-- `save_errors` from `src/lib.rs`: serialize with a fresh default serializer
under the persisting discipline; a failure of the root serialization itself is
wrapped as a root-level `Save.Error` (`unwrap_or_else(Save::Error)`). -/
def save_errors (p : Producer) : Save PersistD.SaveError :=
  match run PersistD Serializer.new p with
  | .ok s => s
  | .error e => .Error e

mutual

/-- `impl Serialize for Save<'static, E> where E: Display` (`src/lib.rs`),
specialised to re-serializing the tree through this crate's own capturing
serializer (`src/imp.rs`) under discipline `D`: each node replays exactly the
serializer call that produced it, with the node's own child/entry count as the
declared length. `disp` is the `Display` rendering of the error payload; an
`Error` node re-serializes as `Err(S::Error::custom(e))`. `I128`/`U128` hit
serde's default `serialize_i128`/`serialize_u128`, which `src/imp.rs` does not
override and which fail. -/
def recapture {E : Type} (D : Discipline) (cfg : Config) (disp : E → String) :
    Save E → Except Error (Save D.SaveError)
  | .Bool b => .ok (.Bool b)
  | .I8 n => .ok (.I8 n)
  | .I16 n => .ok (.I16 n)
  | .I32 n => .ok (.I32 n)
  | .I64 n => .ok (.I64 n)
  | .I128 _ => .error (Error.custom "i128 is not supported")
  | .U8 n => .ok (.U8 n)
  | .U16 n => .ok (.U16 n)
  | .U32 n => .ok (.U32 n)
  | .U64 n => .ok (.U64 n)
  | .U128 _ => .error (Error.custom "u128 is not supported")
  | .F32 bits => .ok (.F32 bits)
  | .F64 bits => .ok (.F64 bits)
  | .Char c => .ok (.Char c)
  | .String s => .ok (.String s)
  | .ByteArray bs => .ok (.ByteArray bs)
  | .Option .none => .ok (.Option .none)
  | .Option (.some it) => do
    let v ← D.handle (recapture D cfg disp it)
    .ok (.Option (.some v))
  | .Unit => .ok .Unit
  | .UnitStruct name => .ok (.UnitStruct name)
  | .UnitVariant v => .ok (.UnitVariant v)
  | .NewTypeStruct name value => do
    let v ← D.handle (recapture D cfg disp value)
    .ok (.NewTypeStruct name v)
  | .NewTypeVariant var value => do
    let v ← D.handle (recapture D cfg disp value)
    .ok (.NewTypeVariant var v)
  | .Seq items => do
    let inner ← recaptureList D cfg disp items
    seqEnd D cfg (.some items.length) inner
  | .Map entries => do
    let kv ← recaptureEntries D cfg disp entries
    mapEnd D cfg (.some entries.length) kv.1 kv.2
  | .Tuple items => do
    let inner ← recaptureList D cfg disp items
    tupleEnd D cfg items.length inner
  | .TupleStruct name values => do
    let inner ← recaptureList D cfg disp values
    tupleStructEnd D cfg name values.length inner
  | .TupleVariant var values => do
    let inner ← recaptureList D cfg disp values
    tupleVariantEnd D cfg var values.length inner
  | .Struct name fields => do
    let fs ← recaptureFields D cfg disp fields
    structEnd D cfg name fields.length fs
  | .StructVariant var fields => do
    let fs ← recaptureFields D cfg disp fields
    structVariantEnd D cfg var fields.length fs
  | .Error e => .error (Error.custom (disp e))

/-- Re-serializing the elements of a `Seq`/`Tuple`/`TupleStruct`/`TupleVariant`
node: one `serialize_element`/`serialize_field` push per element. -/
def recaptureList {E : Type} (D : Discipline) (cfg : Config) (disp : E → String) :
    List (Save E) → Except Error (List (Save D.SaveError))
  | [] => .ok []
  | s :: rest => do
    let v ← D.handle (recapture D cfg disp s)
    let vs ← recaptureList D cfg disp rest
    .ok (v :: vs)

/-- Re-serializing the entries of a `Map` node: `serialize_entry(k, v)` pushes
the key and then the value for each pair, building the two parallel buffers. -/
def recaptureEntries {E : Type} (D : Discipline) (cfg : Config) (disp : E → String) :
    List (Save E × Save E) →
    Except Error (List (Save D.SaveError) × List (Save D.SaveError))
  | [] => .ok ([], [])
  | (k, v) :: rest => do
    let k2 ← D.handle (recapture D cfg disp k)
    let v2 ← D.handle (recapture D cfg disp v)
    let kv ← recaptureEntries D cfg disp rest
    .ok (k2 :: kv.1, v2 :: kv.2)

/-- Re-serializing the fields of a `Struct`/`StructVariant` node: a `some`
field replays `serialize_field`, a `none` field replays `skip_field`. -/
def recaptureFields {E : Type} (D : Discipline) (cfg : Config) (disp : E → String) :
    List (String × Option (Save E)) →
    Except Error (List (String × Option (Save D.SaveError)))
  | [] => .ok []
  | (name, .none) :: rest => do
    let fs ← recaptureFields D cfg disp rest
    .ok ((name, .none) :: fs)
  | (name, .some v) :: rest => do
    let v2 ← D.handle (recapture D cfg disp v)
    let fs ← recaptureFields D cfg disp rest
    .ok ((name, .some v2) :: fs)

end

mutual

/-- `true` iff the tree contains no `Save.Error` node. -/
def NoErrorB {E : Type} : Save E → Bool
  | .Option (.some s) => NoErrorB s
  | .NewTypeStruct _ v => NoErrorB v
  | .NewTypeVariant _ v => NoErrorB v
  | .Seq l => NoErrorList l
  | .Map l => NoErrorEntries l
  | .Tuple l => NoErrorList l
  | .TupleStruct _ l => NoErrorList l
  | .TupleVariant _ l => NoErrorList l
  | .Struct _ fs => NoErrorFields fs
  | .StructVariant _ fs => NoErrorFields fs
  | .Error _ => false
  | _ => true

def NoErrorList {E : Type} : List (Save E) → Bool
  | [] => true
  | s :: rest => NoErrorB s && NoErrorList rest

def NoErrorEntries {E : Type} : List (Save E × Save E) → Bool
  | [] => true
  | (k, v) :: rest => NoErrorB k && NoErrorB v && NoErrorEntries rest

def NoErrorFields {E : Type} : List (String × Option (Save E)) → Bool
  | [] => true
  | (_, .some v) :: rest => NoErrorB v && NoErrorFields rest
  | (_, .none) :: rest => NoErrorFields rest

end

mutual

/-- `true` iff the tree only makes serializer calls that the capturing
serializer of `src/imp.rs` accepts without raising anything beyond its `Error`
nodes: no `Struct`/`StructVariant` node has duplicate field names (which the
re-applied protocol check would flag) and no `I128`/`U128` leaf occurs (which
serde's default method, not overridden in `src/imp.rs`, rejects). Trees
captured by this serializer satisfy both by construction. -/
def ConformantB {E : Type} : Save E → Bool
  | .I128 _ => false
  | .U128 _ => false
  | .Option (.some s) => ConformantB s
  | .NewTypeStruct _ v => ConformantB v
  | .NewTypeVariant _ v => ConformantB v
  | .Seq l => ConformantList l
  | .Map l => ConformantEntries l
  | .Tuple l => ConformantList l
  | .TupleStruct _ l => ConformantList l
  | .TupleVariant _ l => ConformantList l
  | .Struct _ fs => (dupScan [] (fs.map Prod.fst)).isEmpty && ConformantFields fs
  | .StructVariant _ fs => (dupScan [] (fs.map Prod.fst)).isEmpty && ConformantFields fs
  | _ => true

def ConformantList {E : Type} : List (Save E) → Bool
  | [] => true
  | s :: rest => ConformantB s && ConformantList rest

def ConformantEntries {E : Type} : List (Save E × Save E) → Bool
  | [] => true
  | (k, v) :: rest => ConformantB k && ConformantB v && ConformantEntries rest

def ConformantFields {E : Type} : List (String × Option (Save E)) → Bool
  | [] => true
  | (_, .some v) :: rest => ConformantB v && ConformantFields rest
  | (_, .none) :: rest => ConformantFields rest

end

mutual

/-- The payload of the first `Save.Error` node in depth-first, left-to-right
traversal order (the order in which re-serialization visits the tree), if any. -/
def firstError {E : Type} : Save E → Option E
  | .Option (.some s) => firstError s
  | .NewTypeStruct _ v => firstError v
  | .NewTypeVariant _ v => firstError v
  | .Seq l => firstErrorList l
  | .Map l => firstErrorEntries l
  | .Tuple l => firstErrorList l
  | .TupleStruct _ l => firstErrorList l
  | .TupleVariant _ l => firstErrorList l
  | .Struct _ fs => firstErrorFields fs
  | .StructVariant _ fs => firstErrorFields fs
  | .Error e => .some e
  | _ => .none

def firstErrorList {E : Type} : List (Save E) → Option E
  | [] => .none
  | s :: rest =>
    match firstError s with
    | .some e => .some e
    | .none => firstErrorList rest

def firstErrorEntries {E : Type} : List (Save E × Save E) → Option E
  | [] => .none
  | (k, v) :: rest =>
    match firstError k with
    | .some e => .some e
    | .none =>
      match firstError v with
      | .some e => .some e
      | .none => firstErrorEntries rest

def firstErrorFields {E : Type} : List (String × Option (Save E)) → Option E
  | [] => .none
  | (_, .some v) :: rest =>
    match firstError v with
    | .some e => .some e
    | .none => firstErrorFields rest
  | (_, .none) :: rest => firstErrorFields rest

end

/-! ## Basic lemmas about the disciplines and the builder finishers -/

@[simp]
theorem sc_handle (r : Except Error (Save ShortCircuitD.SaveError)) :
    ShortCircuitD.handle r = r :=
  rfl

@[simp]
theorem persist_handle_ok (s : Save PersistD.SaveError) :
    PersistD.handle (.ok s) = .ok s :=
  rfl

@[simp]
theorem persist_handle_error (e : Error) :
    PersistD.handle (.error e) = .ok (.Error e) :=
  rfl

theorem persist_handle_total (r : Except Error (Save PersistD.SaveError)) :
    ∃ s, PersistD.handle r = .ok s := by
  cases r <;> exact ⟨_, rfl⟩

@[simp]
theorem ok_bind {α β : Type} (a : α) (f : α → Except Error β) :
    (Except.ok a >>= f) = f a :=
  rfl

@[simp]
theorem error_bind {α β : Type} (e : Error) (f : α → Except Error β) :
    ((Except.error e : Except Error α) >>= f) = .error e :=
  rfl

/-! ## Lemmas about the map zipping loop -/

theorem mapZip_eq_length {D : Discipline} (e : Error) (ks : List (Save D.SaveError)) :
    ∀ vs : List (Save D.SaveError), ks.length = vs.length →
      mapZip D e ks vs = .ok (ks.zip vs) := by
  induction ks with
  | nil =>
    intro vs h
    cases vs with
    | nil => simp [mapZip]
    | cons v vs => simp at h
  | cons k ks ih =>
    intro vs h
    cases vs with
    | nil => simp at h
    | cons v vs => simp [mapZip, ih vs (by simpa using h)]

theorem mapZip_sc_ne (e : Error) (ks : List (Save ShortCircuitD.SaveError)) :
    ∀ vs, ks.length ≠ vs.length → mapZip ShortCircuitD e ks vs = .error e := by
  induction ks with
  | nil =>
    intro vs h
    cases vs with
    | nil => exact absurd rfl h
    | cons v vs => simp [mapZip]
  | cons k ks ih =>
    intro vs h
    cases vs with
    | nil => simp [mapZip]
    | cons v vs => simp [mapZip, ih vs (by simpa using h)]

theorem mapZip_persist_total (e : Error) (ks : List (Save PersistD.SaveError)) :
    ∀ vs, ∃ m, mapZip PersistD e ks vs = .ok m := by
  induction ks with
  | nil =>
    intro vs
    induction vs with
    | nil => exact ⟨[], by simp [mapZip]⟩
    | cons v vs ihv =>
      obtain ⟨m, hm⟩ := ihv
      exact ⟨(.Error e, v) :: m, by simp [mapZip, hm]⟩
  | cons k ks ih =>
    intro vs
    cases vs with
    | nil =>
      obtain ⟨m, hm⟩ := ih []
      exact ⟨(k, .Error e) :: m, by simp [mapZip, hm]⟩
    | cons v vs =>
      obtain ⟨m, hm⟩ := ih vs
      exact ⟨(k, v) :: m, by simp [mapZip, hm]⟩

theorem mapZip_persist_ne (e : Error) (ks : List (Save PersistD.SaveError)) :
    ∀ vs, ks.length ≠ vs.length →
      ∃ m, mapZip PersistD e ks vs = .ok m
        ∧ ∃ pr ∈ m, pr.1 = .Error e ∨ pr.2 = .Error e := by
  induction ks with
  | nil =>
    intro vs h
    cases vs with
    | nil => exact absurd rfl h
    | cons v vs =>
      obtain ⟨m, hm⟩ := mapZip_persist_total e [] vs
      refine ⟨(.Error e, v) :: m, ?_, (.Error e, v), ?_, Or.inl rfl⟩
      · simp [mapZip, hm]
      · simp
  | cons k ks ih =>
    intro vs h
    cases vs with
    | nil =>
      obtain ⟨m, hm⟩ := mapZip_persist_total e ks []
      refine ⟨(k, .Error e) :: m, ?_, (k, .Error e), ?_, Or.inr rfl⟩
      · simp [mapZip, hm]
      · simp
    | cons v vs =>
      obtain ⟨m, hm, pr, hpr, hor⟩ := ih vs (by simpa using h)
      refine ⟨(k, v) :: m, ?_, pr, ?_, hor⟩
      · simp [mapZip, hm]
      · simp [hpr]

/-! ## Totality of the persisting discipline -/

theorem check_length_persist_total (what : String) (cfg : Config) (n : Nat)
    (l : List (Save PersistD.SaveError)) :
    ∃ r, check_length what PersistD cfg n l = .ok r := by
  simp only [check_length]
  split
  · split
    · simp only [persist_handle_error, ok_bind]
      exact ⟨_, rfl⟩
    · exact ⟨l, rfl⟩
  · exact ⟨l, rfl⟩

theorem seqEnd_persist_total (cfg : Config) (len : Option Nat)
    (inner : List (Save PersistD.SaveError)) :
    ∃ s, seqEnd PersistD cfg len inner = .ok s := by
  cases len with
  | none => exact ⟨.Seq inner, rfl⟩
  | some n =>
    obtain ⟨r, hr⟩ := check_length_persist_total "sequence" cfg n inner
    exact ⟨.Seq r, by simp [seqEnd, hr]⟩

theorem tupleEnd_persist_total (cfg : Config) (n : Nat)
    (inner : List (Save PersistD.SaveError)) :
    ∃ s, tupleEnd PersistD cfg n inner = .ok s := by
  obtain ⟨r, hr⟩ := check_length_persist_total "tuple" cfg n inner
  exact ⟨.Tuple r, by simp [tupleEnd, hr]⟩

theorem tupleStructEnd_persist_total (cfg : Config) (name : String) (n : Nat)
    (inner : List (Save PersistD.SaveError)) :
    ∃ s, tupleStructEnd PersistD cfg name n inner = .ok s := by
  obtain ⟨r, hr⟩ := check_length_persist_total "tuple struct" cfg n inner
  exact ⟨.TupleStruct name r, by simp [tupleStructEnd, hr]⟩

theorem tupleVariantEnd_persist_total (cfg : Config) (var : Variant) (n : Nat)
    (inner : List (Save PersistD.SaveError)) :
    ∃ s, tupleVariantEnd PersistD cfg var n inner = .ok s := by
  obtain ⟨r, hr⟩ := check_length_persist_total "tuple variant" cfg n inner
  exact ⟨.TupleVariant var r, by simp [tupleVariantEnd, hr]⟩

theorem mapEnd_persist_total (cfg : Config) (len : Option Nat)
    (ks vs : List (Save PersistD.SaveError)) :
    ∃ s, mapEnd PersistD cfg len ks vs = .ok s := by
  obtain ⟨m, hm⟩ := mapZip_persist_total (mapOrphanError ks.length vs.length) ks vs
  cases len with
  | none => exact ⟨.Map m, by simp [mapEnd, hm]⟩
  | some expected =>
    simp only [mapEnd, hm, ok_bind]
    split
    · split
      · simp only [persist_handle_error, ok_bind]
        exact ⟨_, rfl⟩
      · exact ⟨.Map m, rfl⟩
    · exact ⟨.Map m, rfl⟩

theorem structCheck_persist_total (what : String) (cfg : Config) (n : Nat)
    (fields : List (String × Option (Save PersistD.SaveError))) :
    ∃ r, structCheck what PersistD cfg n fields = .ok r := by
  simp only [structCheck]
  split
  · split
    · simp only [pure_bind]
      split
      · simp only [persist_handle_error, ok_bind]
        exact ⟨_, rfl⟩
      · exact ⟨_, rfl⟩
    · simp only [persist_handle_error, ok_bind, pure_bind]
      split
      · exact ⟨_, rfl⟩
      · exact ⟨_, rfl⟩
  · exact ⟨fields, rfl⟩

theorem structEnd_persist_total (cfg : Config) (name : String) (n : Nat)
    (fields : List (String × Option (Save PersistD.SaveError))) :
    ∃ s, structEnd PersistD cfg name n fields = .ok s := by
  obtain ⟨r, hr⟩ := structCheck_persist_total "struct" cfg n fields
  exact ⟨.Struct name r, by simp [structEnd, hr]⟩

theorem structVariantEnd_persist_total (cfg : Config) (var : Variant) (n : Nat)
    (fields : List (String × Option (Save PersistD.SaveError))) :
    ∃ s, structVariantEnd PersistD cfg var n fields = .ok s := by
  obtain ⟨r, hr⟩ := structCheck_persist_total "struct" cfg n fields
  exact ⟨.StructVariant var r, by simp [structVariantEnd, hr]⟩

theorem pushAll_persist_total (cfg : Config) (l : List Producer) :
    ∃ r, pushAll PersistD cfg l = .ok r := by
  induction l with
  | nil => exact ⟨[], rfl⟩
  | cons p ps ih =>
    obtain ⟨v, hv⟩ := persist_handle_total (run PersistD cfg p)
    obtain ⟨r, hr⟩ := ih
    exact ⟨v :: r, by simp [pushAll, hv, hr]⟩

theorem mapPushAll_persist_total (cfg : Config) (l : List (Bool × Producer)) :
    ∃ r, mapPushAll PersistD cfg l = .ok r := by
  induction l with
  | nil => exact ⟨([], []), rfl⟩
  | cons bp ps ih =>
    obtain ⟨b, p⟩ := bp
    obtain ⟨v, hv⟩ := persist_handle_total (run PersistD cfg p)
    obtain ⟨r, hr⟩ := ih
    cases b
    · exact ⟨(r.1, v :: r.2), by simp [mapPushAll, hv, hr]⟩
    · exact ⟨(v :: r.1, r.2), by simp [mapPushAll, hv, hr]⟩

theorem fieldPushAll_persist_total (cfg : Config) (l : List (String × Option Producer)) :
    ∃ r, fieldPushAll PersistD cfg l = .ok r := by
  induction l with
  | nil => exact ⟨[], rfl⟩
  | cons np ps ih =>
    obtain ⟨name, op⟩ := np
    obtain ⟨r, hr⟩ := ih
    cases op with
    | none => exact ⟨(name, .none) :: r, by simp [fieldPushAll, hr]⟩
    | some p =>
      obtain ⟨v, hv⟩ := persist_handle_total (run PersistD cfg p)
      exact ⟨(name, .some v) :: r, by simp [fieldPushAll, hv, hr]⟩

/-! ## C3: short-circuit vs persist on a failing nested field -/

/-- C3: for a value with a single nested field whose serialization fails with
message "boom", the short-circuiting entry point `save` returns `Err` with
message "boom" (and `is_protocol` false), while `save_errors` returns a tree
in which that field's node is `Save.Error` with message "boom" and
`is_protocol() == false`. -/
theorem claim_C3 (sname fname : String) :
    save (.strukt sname 1 [(fname, .some (.fail "boom"))]) = .error ⟨"boom", false⟩
    ∧ (Error.mk "boom" false).is_protocol = false
    ∧ save_errors (.strukt sname 1 [(fname, .some (.fail "boom"))]) =
        .Struct sname [(fname, .some (.Error ⟨"boom", false⟩))] :=
  ⟨rfl, rfl, rfl⟩

/-! ## C4: sequence length-hint checking -/

/-- C4: a sequence builder with declared length hint 3 into which exactly 2
elements were pushed, with protocol checking enabled, appends on `finish()`
one synthetic error-handled element with message
"protocol error: expected a sequence of length 3, got 2" and `is_protocol`
true (an in-tree `Save.Error` under the persisting discipline, a propagated
failure under the short-circuiting one); a sequence builder with no length
hint never receives a length-mismatch element, whatever was pushed. -/
theorem claim_C4 :
    (∀ (hr : Bool) (a b : Save PersistD.SaveError),
      seqEnd PersistD ⟨hr, true⟩ (.some 3) [a, b] =
        .ok (.Seq [a, b,
          .Error ⟨"protocol error: expected a sequence of length 3, got 2", true⟩]))
    ∧ (∀ (hr : Bool) (a b : Save ShortCircuitD.SaveError),
      seqEnd ShortCircuitD ⟨hr, true⟩ (.some 3) [a, b] =
        .error ⟨"protocol error: expected a sequence of length 3, got 2", true⟩)
    ∧ (Error.mk "protocol error: expected a sequence of length 3, got 2" true).is_protocol
        = true
    ∧ (∀ (D : Discipline) (cfg : Config) (inner : List (Save D.SaveError)),
      seqEnd D cfg .none inner = .ok (.Seq inner)) :=
  ⟨fun _ _ _ => by unfold seqEnd check_length; norm_num; rfl,
   fun _ _ _ => by unfold seqEnd check_length; norm_num; rfl,
   rfl, fun _ _ _ => rfl⟩

/-! ## C5: map builders zip their buffers and fill orphans -/

/-- C5: a map builder into which exactly 2 keys and 3 values were pushed,
finished under the persisting discipline (no declared length hint), returns a
`Map` of exactly 3 pairs: the 2 pushed keys zipped positionally with the first
2 values, and a 3rd pair whose key slot is a synthetic `Save.Error` with
message "protocol error: map has 2 keys and 3 values" and `is_protocol` true,
its value slot being the 3rd pushed value. -/
theorem claim_C5 (cfg : Config) (k1 k2 v1 v2 v3 : Save PersistD.SaveError) :
    mapEnd PersistD cfg .none [k1, k2] [v1, v2, v3] =
      .ok (.Map [(k1, v1), (k2, v2),
        (.Error ⟨"protocol error: map has 2 keys and 3 values", true⟩, v3)])
    ∧ (Error.mk "protocol error: map has 2 keys and 3 values" true).is_protocol = true :=
  ⟨by unfold mapEnd mapOrphanError; norm_num [mapZip]; rfl, rfl⟩

/-! ## C6: struct duplicate-field detection -/

/-- C6: a struct builder declared with length 2 into which fields `("a", x)`
and `("a", y)` were pushed yields, on `finish()` with protocol checking
enabled (persisting discipline), a `Struct` whose field list contains an entry
named "!error" whose error value carries the message
"protocol error: struct has duplicate field names: a" (which contains
"duplicate field names: a") and has `is_protocol` true. -/
theorem claim_C6 (hr : Bool) (x y : Option (Save PersistD.SaveError)) :
    ∃ fs, structEnd PersistD ⟨hr, true⟩ "S" 2 [("a", x), ("a", y)] = .ok (.Struct "S" fs)
      ∧ ("!error",
          Option.some (Save.Error
            ⟨"protocol error: struct has duplicate field names: a", true⟩)) ∈ fs
      ∧ (Error.mk "protocol error: struct has duplicate field names: a" true).is_protocol
          = true :=
  ⟨[("a", x), ("a", y),
    ("!error", .some (.Error ⟨"protocol error: struct has duplicate field names: a", true⟩)),
    ("!error", .some (.Error ⟨"protocol error: expected a struct of length 2, got 3", true⟩))],
    by unfold structEnd structCheck; norm_num [dupScan]; exact ⟨rfl, rfl⟩, by simp, rfl⟩

/-! ## C9: the duplicate-name synthetic entry is counted by the length check -/

/-- C9: in the struct `finish()` check, the synthetic "!error" entry appended
by the duplicate-name check is itself counted by the subsequent length check:
a builder whose 3 pushed fields match its declared length 3 but contain a
duplicated name gets *both* the duplicate-name "!error" entry and a
length-mismatch "!error" entry reporting `got 4` (3 pushed + 1 synthetic) —
the two checks are not independent. -/
theorem claim_C9 (hr : Bool) (name : String) (x y z : Option (Save PersistD.SaveError)) :
    structEnd PersistD ⟨hr, true⟩ name 3 [("a", x), ("a", y), ("b", z)] =
      .ok (.Struct name [("a", x), ("a", y), ("b", z),
        ("!error",
          .some (.Error ⟨"protocol error: struct has duplicate field names: a", true⟩)),
        ("!error",
          .some (.Error ⟨"protocol error: expected a struct of length 3, got 4", true⟩))]) := by
  unfold structEnd structCheck
  norm_num [dupScan]
  exact ⟨rfl, rfl⟩

/-! ## C7: skipped fields are recorded as `none`, distinct from a none-option -/

/-- C7: a struct builder on which `skip_field("x")` was called (an entry
carrying no value at all — nothing is serialized for it) finishes to a
`Struct` with the field entry `("x", none)`, under either discipline and any
configuration; and that entry is a different value from a present field whose
serialized value is a none-option, `("x", some (Option none))`. -/
theorem claim_C7 :
    (∀ (cfg : Config) (name : String),
      run ShortCircuitD cfg (.strukt name 1 [("x", .none)]) =
        .ok (.Struct name [("x", .none)]))
    ∧ (∀ (cfg : Config) (name : String),
      run PersistD cfg (.strukt name 1 [("x", .none)]) =
        .ok (.Struct name [("x", .none)]))
    ∧ ("x", (Option.none : Option (Save PersistD.SaveError))) ≠
        ("x", Option.some (Save.Option Option.none)) :=
  ⟨fun cfg _ => by obtain ⟨h, pe⟩ := cfg; cases pe <;> rfl,
   fun cfg _ => by obtain ⟨h, pe⟩ := cfg; cases pe <;> rfl,
   by simp⟩

/-! ## C10: orphan filling is independent of the protocol-check flag -/

/-- C10: the map builder's orphan key/value filling is not controlled by the
protocol-error-checking flag. Even with `check_for_protocol_errors(false)`,
finishing a map builder whose key and value buffers have different lengths
still produces the synthetic "protocol error: map has K keys and V values"
failure (`is_protocol` true): embedded in some pair of the resulting `Map`
under the persisting discipline, propagated as the overall error under the
short-circuiting one. When the buffer lengths agree, checking disabled, the
builder returns exactly the positional zip — even when a declared length hint
disagrees: only the declared-length comparison is gated by the flag. -/
theorem claim_C10 :
    (∀ (hr : Bool) (hint : Option Nat) (ks vs : List (Save PersistD.SaveError)),
      ks.length ≠ vs.length →
      ∃ m, mapEnd PersistD ⟨hr, false⟩ hint ks vs = .ok (.Map m)
        ∧ ∃ pr ∈ m, pr.1 = .Error (mapOrphanError ks.length vs.length)
          ∨ pr.2 = .Error (mapOrphanError ks.length vs.length))
    ∧ (∀ (hr : Bool) (hint : Option Nat) (ks vs : List (Save ShortCircuitD.SaveError)),
      ks.length ≠ vs.length →
      mapEnd ShortCircuitD ⟨hr, false⟩ hint ks vs =
        .error (mapOrphanError ks.length vs.length))
    ∧ (∀ n_keys n_values, (mapOrphanError n_keys n_values).is_protocol = true)
    ∧ mapOrphanError 2 3 = ⟨"protocol error: map has 2 keys and 3 values", true⟩
    ∧ (∀ (D : Discipline) (hr : Bool) (hint : Option Nat) (ks vs : List (Save D.SaveError)),
      ks.length = vs.length →
      mapEnd D ⟨hr, false⟩ hint ks vs = .ok (.Map (ks.zip vs))) := by
  refine ⟨?_, ?_, fun _ _ => rfl, rfl, ?_⟩
  · intro hr hint ks vs h
    obtain ⟨m, hm, hmem⟩ := mapZip_persist_ne (mapOrphanError ks.length vs.length) ks vs h
    cases hint <;> exact ⟨m, by simp [mapEnd, hm], hmem⟩
  · intro hr hint ks vs h
    cases hint <;>
      simp [mapEnd, mapZip_sc_ne (mapOrphanError ks.length vs.length) ks vs h]
  · intro D hr hint ks vs h
    cases hint <;> simp [mapEnd, mapZip_eq_length (mapOrphanError ks.length vs.length) ks vs h]

/-- Witness for C10 at concrete inputs: one key and no values with checking
disabled, and the matching-lengths case with a wrong hint. -/
theorem claim_C10_wit :
    (∃ m, mapEnd PersistD ⟨true, false⟩ .none [Save.Unit]
        ([] : List (Save PersistD.SaveError)) = .ok (.Map m)
      ∧ ∃ pr ∈ m, pr.1 = .Error (mapOrphanError 1 0) ∨ pr.2 = .Error (mapOrphanError 1 0))
    ∧ mapEnd ShortCircuitD ⟨true, false⟩ .none [Save.Unit] [] =
        .error (mapOrphanError 1 0)
    ∧ mapEnd PersistD ⟨true, false⟩ (.some 5) [Save.Unit] [Save.Unit] =
        .ok (.Map [(Save.Unit, Save.Unit)]) :=
  ⟨claim_C10.1 true .none [Save.Unit] [] (by decide),
   claim_C10.2.1 true .none [Save.Unit] [] (by decide),
   claim_C10.2.2.2.2 PersistD true (.some 5) [Save.Unit] [Save.Unit] rfl⟩

/-! ## C2: the persisting entry point always returns a tree -/

/-- C2: for every producer, `save_errors` returns a tree and never fails. The
root serialization under the persisting discipline can only fail when the root
value's own `serialize` fails — a `fail` producer, or a producer hitting
serde's unsupported default `serialize_i128`/`serialize_u128` — and in that
case `save_errors` wraps the failure as a root-level `Save.Error` node; for
every other producer the traversal completes and yields a tree (all nested
failures having been embedded in place by `Persist::handle`). -/
theorem claim_C2 :
    (∀ (cfg : Config) (p : Producer) (e : Error), run PersistD cfg p = .error e →
      p = .fail e.msg ∨ (∃ n, p = .i128 n) ∨ (∃ n, p = .u128 n))
    ∧ (∀ (p : Producer) (s : Save PersistD.SaveError),
      run PersistD Serializer.new p = .ok s → save_errors p = s)
    ∧ (∀ (p : Producer) (e : Error),
      run PersistD Serializer.new p = .error e → save_errors p = .Error e)
    ∧ (∀ msg, save_errors (.fail msg) = .Error ⟨msg, false⟩) := by
  refine ⟨?_, ?_, ?_, fun msg => rfl⟩
  · intro cfg p e h
    cases p with
    | fail msg =>
      left
      simp only [run] at h
      injection h with h
      rw [← h]
      rfl
    | i128 n => exact Or.inr (Or.inl ⟨n, rfl⟩)
    | u128 n => exact Or.inr (Or.inr ⟨n, rfl⟩)
    | some p =>
      obtain ⟨v, hv⟩ := persist_handle_total (run PersistD cfg p)
      simp [run, hv] at h
    | newtype_struct name p =>
      obtain ⟨v, hv⟩ := persist_handle_total (run PersistD cfg p)
      simp [run, hv] at h
    | newtype_variant var p =>
      obtain ⟨v, hv⟩ := persist_handle_total (run PersistD cfg p)
      simp [run, hv] at h
    | seq len elems =>
      obtain ⟨inner, hi⟩ := pushAll_persist_total cfg elems
      obtain ⟨s, hs⟩ := seqEnd_persist_total cfg len inner
      simp [run, hi, hs] at h
    | tuple len elems =>
      obtain ⟨inner, hi⟩ := pushAll_persist_total cfg elems
      obtain ⟨s, hs⟩ := tupleEnd_persist_total cfg len inner
      simp [run, hi, hs] at h
    | tuple_struct name len elems =>
      obtain ⟨inner, hi⟩ := pushAll_persist_total cfg elems
      obtain ⟨s, hs⟩ := tupleStructEnd_persist_total cfg name len inner
      simp [run, hi, hs] at h
    | tuple_variant var len elems =>
      obtain ⟨inner, hi⟩ := pushAll_persist_total cfg elems
      obtain ⟨s, hs⟩ := tupleVariantEnd_persist_total cfg var len inner
      simp [run, hi, hs] at h
    | map len pushes =>
      obtain ⟨kv, hkv⟩ := mapPushAll_persist_total cfg pushes
      obtain ⟨s, hs⟩ := mapEnd_persist_total cfg len kv.1 kv.2
      simp [run, hkv, hs] at h
    | strukt name len entries =>
      obtain ⟨fs, hf⟩ := fieldPushAll_persist_total cfg entries
      obtain ⟨s, hs⟩ := structEnd_persist_total cfg name len fs
      simp [run, hf, hs] at h
    | struct_variant var len entries =>
      obtain ⟨fs, hf⟩ := fieldPushAll_persist_total cfg entries
      obtain ⟨s, hs⟩ := structVariantEnd_persist_total cfg var len fs
      simp [run, hf, hs] at h
    | _ => simp [run] at h
  · intro p s h
    simp [save_errors, h]
  · intro p e h
    simp [save_errors, h]

/-- Witness for C2: the root `fail` producer yields a root-level error node,
and a sequence containing a failing element still serializes to a tree with
the failure embedded in place. -/
theorem claim_C2_wit :
    (Producer.fail "m" = .fail (Error.mk "m" false).msg
      ∨ (∃ n, Producer.fail "m" = .i128 n) ∨ (∃ n, Producer.fail "m" = .u128 n))
    ∧ save_errors (.seq (.some 1) [.fail "m"]) = .Seq [.Error ⟨"m", false⟩] :=
  ⟨claim_C2.1 Serializer.new (.fail "m") ⟨"m", false⟩ rfl,
   claim_C2.2.1 (.seq (.some 1) [.fail "m"]) (.Seq [.Error ⟨"m", false⟩]) rfl⟩

/-! ## C8: the short-circuit error payload is uninhabited -/

mutual

theorem noError_empty : ∀ s : Save Empty, NoErrorB s = true
  | .Bool _ => rfl
  | .I8 _ => rfl
  | .I16 _ => rfl
  | .I32 _ => rfl
  | .I64 _ => rfl
  | .I128 _ => rfl
  | .U8 _ => rfl
  | .U16 _ => rfl
  | .U32 _ => rfl
  | .U64 _ => rfl
  | .U128 _ => rfl
  | .F32 _ => rfl
  | .F64 _ => rfl
  | .Char _ => rfl
  | .String _ => rfl
  | .ByteArray _ => rfl
  | .Option .none => rfl
  | .Option (.some s) => by simpa [NoErrorB] using noError_empty s
  | .Unit => rfl
  | .UnitStruct _ => rfl
  | .UnitVariant _ => rfl
  | .NewTypeStruct _ v => by simpa [NoErrorB] using noError_empty v
  | .NewTypeVariant _ v => by simpa [NoErrorB] using noError_empty v
  | .Seq l => by simpa [NoErrorB] using noErrorList_empty l
  | .Map l => by simpa [NoErrorB] using noErrorEntries_empty l
  | .Tuple l => by simpa [NoErrorB] using noErrorList_empty l
  | .TupleStruct _ l => by simpa [NoErrorB] using noErrorList_empty l
  | .TupleVariant _ l => by simpa [NoErrorB] using noErrorList_empty l
  | .Struct _ fs => by simpa [NoErrorB] using noErrorFields_empty fs
  | .StructVariant _ fs => by simpa [NoErrorB] using noErrorFields_empty fs
  | .Error e => e.elim

theorem noErrorList_empty : ∀ l : List (Save Empty), NoErrorList l = true
  | [] => rfl
  | s :: rest => by
    simp [NoErrorList, noError_empty s, noErrorList_empty rest]

theorem noErrorEntries_empty : ∀ l : List (Save Empty × Save Empty), NoErrorEntries l = true
  | [] => rfl
  | (k, v) :: rest => by
    simp [NoErrorEntries, noError_empty k, noError_empty v, noErrorEntries_empty rest]

theorem noErrorFields_empty : ∀ l : List (String × Option (Save Empty)), NoErrorFields l = true
  | [] => rfl
  | (_, .some v) :: rest => by
    simp [NoErrorFields, noError_empty v, noErrorFields_empty rest]
  | (_, .none) :: rest => by
    simp [NoErrorFields, noErrorFields_empty rest]

end

/-- C8: under the `ShortCircuit` error discipline (the default used by `save`)
the `Error` variant of the produced tree type is instantiated at the
uninhabited type `Empty`, so every tree of that type — in particular every
tree returned successfully by `save` — contains no `Save.Error` node, and the
`Error` arm of a match is unreachable. -/
theorem claim_C8 :
    ShortCircuitD.SaveError = Empty
    ∧ (∀ s : Save ShortCircuitD.SaveError, NoErrorB s = true)
    ∧ (∀ (p : Producer) (s : Save ShortCircuitD.SaveError),
      save p = .ok s → NoErrorB s = true) :=
  ⟨rfl, noError_empty, fun _ s _ => noError_empty s⟩

/-- Witness for C8: the tree captured from a unit producer carries no error
node. -/
theorem claim_C8_wit : NoErrorB (Save.Unit : Save ShortCircuitD.SaveError) = true :=
  claim_C8.2.2 .unit .Unit rfl

/-! ## Finishers act as identity on conformant buffers -/

theorem zip_map_fst_snd {A B : Type} (l : List (A × B)) :
    (l.map Prod.fst).zip (l.map Prod.snd) = l := by
  induction l with
  | nil => rfl
  | cons a l ih => simp [ih]

theorem check_length_self {D : Discipline} (what : String) (cfg : Config)
    (l : List (Save D.SaveError)) :
    check_length what D cfg l.length l = .ok l := by
  simp only [check_length]
  split
  · simp
  · rfl

theorem seqEnd_self {D : Discipline} (cfg : Config) (l : List (Save D.SaveError)) :
    seqEnd D cfg (.some l.length) l = .ok (.Seq l) := by
  simp [seqEnd, check_length_self]

theorem tupleEnd_self {D : Discipline} (cfg : Config) (l : List (Save D.SaveError)) :
    tupleEnd D cfg l.length l = .ok (.Tuple l) := by
  simp [tupleEnd, check_length_self]

theorem tupleStructEnd_self {D : Discipline} (cfg : Config) (name : String)
    (l : List (Save D.SaveError)) :
    tupleStructEnd D cfg name l.length l = .ok (.TupleStruct name l) := by
  simp [tupleStructEnd, check_length_self]

theorem tupleVariantEnd_self {D : Discipline} (cfg : Config) (var : Variant)
    (l : List (Save D.SaveError)) :
    tupleVariantEnd D cfg var l.length l = .ok (.TupleVariant var l) := by
  simp [tupleVariantEnd, check_length_self]

theorem mapEnd_self {D : Discipline} (cfg : Config) (ks vs : List (Save D.SaveError))
    (h : ks.length = vs.length) :
    mapEnd D cfg (.some ks.length) ks vs = .ok (.Map (ks.zip vs)) := by
  have hz : (ks.zip vs).length = ks.length := by simp [h]
  simp only [mapEnd, mapZip_eq_length _ ks vs h, ok_bind]
  split
  · split
    · rename_i hne
      exact absurd hz.symm hne
    · rfl
  · rfl

theorem structCheck_self {D : Discipline} (what : String) (cfg : Config)
    (fs : List (String × Option (Save D.SaveError)))
    (h : (dupScan [] (fs.map Prod.fst)).isEmpty = true) :
    structCheck what D cfg fs.length fs = .ok fs := by
  simp only [structCheck]
  split
  · simp [h]
  · rfl

theorem structEnd_self {D : Discipline} (cfg : Config) (name : String)
    (fs : List (String × Option (Save D.SaveError)))
    (h : (dupScan [] (fs.map Prod.fst)).isEmpty = true) :
    structEnd D cfg name fs.length fs = .ok (.Struct name fs) := by
  simp [structEnd, structCheck_self _ _ _ h]

theorem structVariantEnd_self {D : Discipline} (cfg : Config) (var : Variant)
    (fs : List (String × Option (Save D.SaveError)))
    (h : (dupScan [] (fs.map Prod.fst)).isEmpty = true) :
    structVariantEnd D cfg var fs.length fs = .ok (.StructVariant var fs) := by
  simp [structVariantEnd, structCheck_self _ _ _ h]

/-! ## Round trip under the persisting discipline -/

mutual

theorem rt_persist : ∀ (s : Save PersistD.SaveError), NoErrorB s = true → ConformantB s = true →
    ∀ cfg : Config, recapture PersistD cfg Error.msg s = .ok s
  | .Bool _, _, _, _ => rfl
  | .I8 _, _, _, _ => rfl
  | .I16 _, _, _, _ => rfl
  | .I32 _, _, _, _ => rfl
  | .I64 _, _, _, _ => rfl
  | .I128 _, _, h2, _ => by simp [ConformantB] at h2
  | .U8 _, _, _, _ => rfl
  | .U16 _, _, _, _ => rfl
  | .U32 _, _, _, _ => rfl
  | .U64 _, _, _, _ => rfl
  | .U128 _, _, h2, _ => by simp [ConformantB] at h2
  | .F32 _, _, _, _ => rfl
  | .F64 _, _, _, _ => rfl
  | .Char _, _, _, _ => rfl
  | .String _, _, _, _ => rfl
  | .ByteArray _, _, _, _ => rfl
  | .Option .none, _, _, _ => rfl
  | .Option (.some s), h1, h2, cfg => by
    have ih := rt_persist s (by simpa [NoErrorB] using h1) (by simpa [ConformantB] using h2) cfg
    simp [recapture, ih]
  | .Unit, _, _, _ => rfl
  | .UnitStruct _, _, _, _ => rfl
  | .UnitVariant _, _, _, _ => rfl
  | .NewTypeStruct name v, h1, h2, cfg => by
    have ih := rt_persist v (by simpa [NoErrorB] using h1) (by simpa [ConformantB] using h2) cfg
    simp [recapture, ih]
  | .NewTypeVariant var v, h1, h2, cfg => by
    have ih := rt_persist v (by simpa [NoErrorB] using h1) (by simpa [ConformantB] using h2) cfg
    simp [recapture, ih]
  | .Seq items, h1, h2, cfg => by
    have ih := rtList_persist items (by simpa [NoErrorB] using h1)
      (by simpa [ConformantB] using h2) cfg
    simp [recapture, ih, seqEnd_self cfg items]
  | .Map entries, h1, h2, cfg => by
    have ih := rtEntries_persist entries (by simpa [NoErrorB] using h1)
      (by simpa [ConformantB] using h2) cfg
    have hlen : (entries.map Prod.fst).length = (entries.map Prod.snd).length := by simp
    have hme := mapEnd_self (D := PersistD) cfg _ _ hlen
    rw [zip_map_fst_snd] at hme
    simp only [List.length_map] at hme
    simp [recapture, ih, hme]
  | .Tuple items, h1, h2, cfg => by
    have ih := rtList_persist items (by simpa [NoErrorB] using h1)
      (by simpa [ConformantB] using h2) cfg
    simp [recapture, ih, tupleEnd_self cfg items]
  | .TupleStruct name values, h1, h2, cfg => by
    have ih := rtList_persist values (by simpa [NoErrorB] using h1)
      (by simpa [ConformantB] using h2) cfg
    simp [recapture, ih, tupleStructEnd_self cfg name values]
  | .TupleVariant var values, h1, h2, cfg => by
    have ih := rtList_persist values (by simpa [NoErrorB] using h1)
      (by simpa [ConformantB] using h2) cfg
    simp [recapture, ih, tupleVariantEnd_self cfg var values]
  | .Struct name fields, h1, h2, cfg => by
    rw [ConformantB, Bool.and_eq_true] at h2
    have ih := rtFields_persist fields (by simpa [NoErrorB] using h1) h2.2 cfg
    simp [recapture, ih, structEnd_self _ _ _ h2.1]
  | .StructVariant var fields, h1, h2, cfg => by
    rw [ConformantB, Bool.and_eq_true] at h2
    have ih := rtFields_persist fields (by simpa [NoErrorB] using h1) h2.2 cfg
    simp [recapture, ih, structVariantEnd_self _ _ _ h2.1]
  | .Error _, h1, _, _ => by simp [NoErrorB] at h1

theorem rtList_persist : ∀ (l : List (Save PersistD.SaveError)), NoErrorList l = true →
    ConformantList l = true → ∀ cfg : Config,
    recaptureList PersistD cfg Error.msg l = .ok l
  | [], _, _, _ => rfl
  | s :: rest, h1, h2, cfg => by
    rw [NoErrorList, Bool.and_eq_true] at h1
    rw [ConformantList, Bool.and_eq_true] at h2
    have ih1 := rt_persist s h1.1 h2.1 cfg
    have ih2 := rtList_persist rest h1.2 h2.2 cfg
    simp [recaptureList, ih1, ih2]

theorem rtEntries_persist : ∀ (l : List (Save PersistD.SaveError × Save PersistD.SaveError)), NoErrorEntries l = true →
    ConformantEntries l = true → ∀ cfg : Config,
    recaptureEntries PersistD cfg Error.msg l = .ok (l.map Prod.fst, l.map Prod.snd)
  | [], _, _, _ => rfl
  | (k, v) :: rest, h1, h2, cfg => by
    rw [NoErrorEntries, Bool.and_eq_true, Bool.and_eq_true] at h1
    rw [ConformantEntries, Bool.and_eq_true, Bool.and_eq_true] at h2
    have ihk := rt_persist k h1.1.1 h2.1.1 cfg
    have ihv := rt_persist v h1.1.2 h2.1.2 cfg
    have ihr := rtEntries_persist rest h1.2 h2.2 cfg
    simp [recaptureEntries, ihk, ihv, ihr]

theorem rtFields_persist : ∀ (l : List (String × Option (Save PersistD.SaveError))), NoErrorFields l = true →
    ConformantFields l = true → ∀ cfg : Config,
    recaptureFields PersistD cfg Error.msg l = .ok l
  | [], _, _, _ => rfl
  | (name, .none) :: rest, h1, h2, cfg => by
    rw [NoErrorFields] at h1
    rw [ConformantFields] at h2
    have ih := rtFields_persist rest h1 h2 cfg
    simp [recaptureFields, ih]
  | (name, .some v) :: rest, h1, h2, cfg => by
    rw [NoErrorFields, Bool.and_eq_true] at h1
    rw [ConformantFields, Bool.and_eq_true] at h2
    have ihv := rt_persist v h1.1 h2.1 cfg
    have ihr := rtFields_persist rest h1.2 h2.2 cfg
    simp [recaptureFields, ihv, ihr]

end

/-! ## Short-circuit re-serialization fails exactly at the first error node -/

mutual

theorem sc_recapture : ∀ (s : Save Error), ConformantB s = true → ∀ cfg : Config,
    (∀ e, firstError s = .some e →
      recapture ShortCircuitD cfg Error.msg s = .error ⟨e.msg, false⟩)
    ∧ (firstError s = .none → ∃ t, recapture ShortCircuitD cfg Error.msg s = .ok t)
  | .Bool b, _, _ => ⟨fun _ h => (nomatch h), fun _ => ⟨.Bool b, rfl⟩⟩
  | .I8 n, _, _ => ⟨fun _ h => (nomatch h), fun _ => ⟨.I8 n, rfl⟩⟩
  | .I16 n, _, _ => ⟨fun _ h => (nomatch h), fun _ => ⟨.I16 n, rfl⟩⟩
  | .I32 n, _, _ => ⟨fun _ h => (nomatch h), fun _ => ⟨.I32 n, rfl⟩⟩
  | .I64 n, _, _ => ⟨fun _ h => (nomatch h), fun _ => ⟨.I64 n, rfl⟩⟩
  | .I128 _, h2, _ => by simp [ConformantB] at h2
  | .U8 n, _, _ => ⟨fun _ h => (nomatch h), fun _ => ⟨.U8 n, rfl⟩⟩
  | .U16 n, _, _ => ⟨fun _ h => (nomatch h), fun _ => ⟨.U16 n, rfl⟩⟩
  | .U32 n, _, _ => ⟨fun _ h => (nomatch h), fun _ => ⟨.U32 n, rfl⟩⟩
  | .U64 n, _, _ => ⟨fun _ h => (nomatch h), fun _ => ⟨.U64 n, rfl⟩⟩
  | .U128 _, h2, _ => by simp [ConformantB] at h2
  | .F32 b, _, _ => ⟨fun _ h => (nomatch h), fun _ => ⟨.F32 b, rfl⟩⟩
  | .F64 b, _, _ => ⟨fun _ h => (nomatch h), fun _ => ⟨.F64 b, rfl⟩⟩
  | .Char c, _, _ => ⟨fun _ h => (nomatch h), fun _ => ⟨.Char c, rfl⟩⟩
  | .String s, _, _ => ⟨fun _ h => (nomatch h), fun _ => ⟨.String s, rfl⟩⟩
  | .ByteArray bs, _, _ => ⟨fun _ h => (nomatch h), fun _ => ⟨.ByteArray bs, rfl⟩⟩
  | .Option .none, _, _ => ⟨fun _ h => (nomatch h), fun _ => ⟨.Option .none, rfl⟩⟩
  | .Option (.some s), h2, cfg => by
    have ih := sc_recapture s (by simpa [ConformantB] using h2) cfg
    constructor
    · intro e h
      simp only [firstError] at h
      simp [recapture, ih.1 e h]
    · intro h
      simp only [firstError] at h
      obtain ⟨t, ht⟩ := ih.2 h
      exact ⟨.Option (.some t), by simp [recapture, ht]⟩
  | .Unit, _, _ => ⟨fun _ h => (nomatch h), fun _ => ⟨.Unit, rfl⟩⟩
  | .UnitStruct n, _, _ => ⟨fun _ h => (nomatch h), fun _ => ⟨.UnitStruct n, rfl⟩⟩
  | .UnitVariant v, _, _ => ⟨fun _ h => (nomatch h), fun _ => ⟨.UnitVariant v, rfl⟩⟩
  | .NewTypeStruct name v, h2, cfg => by
    have ih := sc_recapture v (by simpa [ConformantB] using h2) cfg
    constructor
    · intro e h
      simp only [firstError] at h
      simp [recapture, ih.1 e h]
    · intro h
      simp only [firstError] at h
      obtain ⟨t, ht⟩ := ih.2 h
      exact ⟨.NewTypeStruct name t, by simp [recapture, ht]⟩
  | .NewTypeVariant var v, h2, cfg => by
    have ih := sc_recapture v (by simpa [ConformantB] using h2) cfg
    constructor
    · intro e h
      simp only [firstError] at h
      simp [recapture, ih.1 e h]
    · intro h
      simp only [firstError] at h
      obtain ⟨t, ht⟩ := ih.2 h
      exact ⟨.NewTypeVariant var t, by simp [recapture, ht]⟩
  | .Seq items, h2, cfg => by
    have ih := scList_recapture items (by simpa [ConformantB] using h2) cfg
    constructor
    · intro e h
      simp only [firstError] at h
      simp [recapture, ih.1 e h]
    · intro h
      simp only [firstError] at h
      obtain ⟨ts, hts, hlen⟩ := ih.2 h
      refine ⟨.Seq ts, ?_⟩
      simp only [recapture, hts, ok_bind]
      rw [← hlen]
      exact seqEnd_self cfg ts
  | .Map entries, h2, cfg => by
    have ih := scEntries_recapture entries (by simpa [ConformantB] using h2) cfg
    constructor
    · intro e h
      simp only [firstError] at h
      simp [recapture, ih.1 e h]
    · intro h
      simp only [firstError] at h
      obtain ⟨ks, vs, hkv, hlk, hlv⟩ := ih.2 h
      refine ⟨.Map (ks.zip vs), ?_⟩
      simp only [recapture, hkv, ok_bind]
      rw [← hlk]
      exact mapEnd_self cfg ks vs (hlk.trans hlv.symm)
  | .Tuple items, h2, cfg => by
    have ih := scList_recapture items (by simpa [ConformantB] using h2) cfg
    constructor
    · intro e h
      simp only [firstError] at h
      simp [recapture, ih.1 e h]
    · intro h
      simp only [firstError] at h
      obtain ⟨ts, hts, hlen⟩ := ih.2 h
      refine ⟨.Tuple ts, ?_⟩
      simp only [recapture, hts, ok_bind]
      rw [← hlen]
      exact tupleEnd_self cfg ts
  | .TupleStruct name values, h2, cfg => by
    have ih := scList_recapture values (by simpa [ConformantB] using h2) cfg
    constructor
    · intro e h
      simp only [firstError] at h
      simp [recapture, ih.1 e h]
    · intro h
      simp only [firstError] at h
      obtain ⟨ts, hts, hlen⟩ := ih.2 h
      refine ⟨.TupleStruct name ts, ?_⟩
      simp only [recapture, hts, ok_bind]
      rw [← hlen]
      exact tupleStructEnd_self cfg name ts
  | .TupleVariant var values, h2, cfg => by
    have ih := scList_recapture values (by simpa [ConformantB] using h2) cfg
    constructor
    · intro e h
      simp only [firstError] at h
      simp [recapture, ih.1 e h]
    · intro h
      simp only [firstError] at h
      obtain ⟨ts, hts, hlen⟩ := ih.2 h
      refine ⟨.TupleVariant var ts, ?_⟩
      simp only [recapture, hts, ok_bind]
      rw [← hlen]
      exact tupleVariantEnd_self cfg var ts
  | .Struct name fields, h2, cfg => by
    rw [ConformantB, Bool.and_eq_true] at h2
    have ih := scFields_recapture fields h2.2 cfg
    constructor
    · intro e h
      simp only [firstError] at h
      simp [recapture, ih.1 e h]
    · intro h
      simp only [firstError] at h
      obtain ⟨fs, hfs, hnames⟩ := ih.2 h
      refine ⟨.Struct name fs, ?_⟩
      simp only [recapture, hfs, ok_bind]
      have hlen : fs.length = fields.length := by
        have := congrArg List.length hnames
        simpa using this
      rw [← hlen]
      refine structEnd_self cfg name fs ?_
      rw [hnames]
      exact h2.1
  | .StructVariant var fields, h2, cfg => by
    rw [ConformantB, Bool.and_eq_true] at h2
    have ih := scFields_recapture fields h2.2 cfg
    constructor
    · intro e h
      simp only [firstError] at h
      simp [recapture, ih.1 e h]
    · intro h
      simp only [firstError] at h
      obtain ⟨fs, hfs, hnames⟩ := ih.2 h
      refine ⟨.StructVariant var fs, ?_⟩
      simp only [recapture, hfs, ok_bind]
      have hlen : fs.length = fields.length := by
        have := congrArg List.length hnames
        simpa using this
      rw [← hlen]
      refine structVariantEnd_self cfg var fs ?_
      rw [hnames]
      exact h2.1
  | .Error e0, _, cfg => by
    constructor
    · intro e h
      simp only [firstError, Option.some.injEq] at h
      subst h
      rfl
    · intro h
      simp [firstError] at h

theorem scList_recapture : ∀ (l : List (Save Error)), ConformantList l = true →
    ∀ cfg : Config,
    (∀ e, firstErrorList l = .some e →
      recaptureList ShortCircuitD cfg Error.msg l = .error ⟨e.msg, false⟩)
    ∧ (firstErrorList l = .none →
      ∃ ts, recaptureList ShortCircuitD cfg Error.msg l = .ok ts ∧ ts.length = l.length)
  | [], _, _ => ⟨fun _ h => (nomatch h), fun _ => ⟨[], rfl, rfl⟩⟩
  | s :: rest, h2, cfg => by
    rw [ConformantList, Bool.and_eq_true] at h2
    have ihs := sc_recapture s h2.1 cfg
    have ihr := scList_recapture rest h2.2 cfg
    constructor
    · intro e h
      cases hfe : firstError s with
      | some e0 =>
        simp only [firstErrorList, hfe, Option.some.injEq] at h
        subst h
        simp [recaptureList, ihs.1 e0 hfe]
      | none =>
        simp only [firstErrorList, hfe] at h
        obtain ⟨t, ht⟩ := ihs.2 hfe
        simp [recaptureList, ht, ihr.1 e h]
    · intro h
      cases hfe : firstError s with
      | some e0 =>
        simp only [firstErrorList, hfe] at h
        exact Option.noConfusion h
      | none =>
        simp only [firstErrorList, hfe] at h
        obtain ⟨t, ht⟩ := ihs.2 hfe
        obtain ⟨ts, hts, hlen⟩ := ihr.2 h
        exact ⟨t :: ts, by simp [recaptureList, ht, hts], by simp [hlen]⟩

theorem scEntries_recapture : ∀ (l : List (Save Error × Save Error)),
    ConformantEntries l = true → ∀ cfg : Config,
    (∀ e, firstErrorEntries l = .some e →
      recaptureEntries ShortCircuitD cfg Error.msg l = .error ⟨e.msg, false⟩)
    ∧ (firstErrorEntries l = .none →
      ∃ ks vs, recaptureEntries ShortCircuitD cfg Error.msg l = .ok (ks, vs)
        ∧ ks.length = l.length ∧ vs.length = l.length)
  | [], _, _ => ⟨fun _ h => (nomatch h), fun _ => ⟨[], [], rfl, rfl, rfl⟩⟩
  | (k, v) :: rest, h2, cfg => by
    rw [ConformantEntries, Bool.and_eq_true, Bool.and_eq_true] at h2
    have ihk := sc_recapture k h2.1.1 cfg
    have ihv := sc_recapture v h2.1.2 cfg
    have ihr := scEntries_recapture rest h2.2 cfg
    constructor
    · intro e h
      cases hfk : firstError k with
      | some e0 =>
        simp only [firstErrorEntries, hfk, Option.some.injEq] at h
        subst h
        simp [recaptureEntries, ihk.1 e0 hfk]
      | none =>
        obtain ⟨tk, htk⟩ := ihk.2 hfk
        cases hfv : firstError v with
        | some e0 =>
          simp only [firstErrorEntries, hfk, hfv, Option.some.injEq] at h
          subst h
          simp [recaptureEntries, htk, ihv.1 e0 hfv]
        | none =>
          simp only [firstErrorEntries, hfk, hfv] at h
          obtain ⟨tv, htv⟩ := ihv.2 hfv
          simp [recaptureEntries, htk, htv, ihr.1 e h]
    · intro h
      cases hfk : firstError k with
      | some e0 =>
        simp only [firstErrorEntries, hfk] at h
        exact Option.noConfusion h
      | none =>
        obtain ⟨tk, htk⟩ := ihk.2 hfk
        cases hfv : firstError v with
        | some e0 =>
          simp only [firstErrorEntries, hfk, hfv] at h
          exact Option.noConfusion h
        | none =>
          simp only [firstErrorEntries, hfk, hfv] at h
          obtain ⟨tv, htv⟩ := ihv.2 hfv
          obtain ⟨ks, vs, hkv, hlk, hlv⟩ := ihr.2 h
          exact ⟨tk :: ks, tv :: vs, by simp [recaptureEntries, htk, htv, hkv],
            by simp [hlk], by simp [hlv]⟩

theorem scFields_recapture : ∀ (l : List (String × Option (Save Error))),
    ConformantFields l = true → ∀ cfg : Config,
    (∀ e, firstErrorFields l = .some e →
      recaptureFields ShortCircuitD cfg Error.msg l = .error ⟨e.msg, false⟩)
    ∧ (firstErrorFields l = .none →
      ∃ fs, recaptureFields ShortCircuitD cfg Error.msg l = .ok fs
        ∧ fs.map Prod.fst = l.map Prod.fst)
  | [], _, _ => ⟨fun _ h => (nomatch h), fun _ => ⟨[], rfl, rfl⟩⟩
  | (name, .none) :: rest, h2, cfg => by
    rw [ConformantFields] at h2
    have ihr := scFields_recapture rest h2 cfg
    constructor
    · intro e h
      simp only [firstErrorFields] at h
      simp [recaptureFields, ihr.1 e h]
    · intro h
      simp only [firstErrorFields] at h
      obtain ⟨fs, hfs, hnames⟩ := ihr.2 h
      exact ⟨(name, .none) :: fs, by simp [recaptureFields, hfs], by simp [hnames]⟩
  | (name, .some v) :: rest, h2, cfg => by
    rw [ConformantFields, Bool.and_eq_true] at h2
    have ihv := sc_recapture v h2.1 cfg
    have ihr := scFields_recapture rest h2.2 cfg
    constructor
    · intro e h
      cases hfv : firstError v with
      | some e0 =>
        simp only [firstErrorFields, hfv, Option.some.injEq] at h
        subst h
        simp [recaptureFields, ihv.1 e0 hfv]
      | none =>
        simp only [firstErrorFields, hfv] at h
        obtain ⟨t, ht⟩ := ihv.2 hfv
        simp [recaptureFields, ht, ihr.1 e h]
    · intro h
      cases hfv : firstError v with
      | some e0 =>
        simp only [firstErrorFields, hfv] at h
        exact Option.noConfusion h
      | none =>
        simp only [firstErrorFields, hfv] at h
        obtain ⟨t, ht⟩ := ihv.2 hfv
        obtain ⟨fs, hfs, hnames⟩ := ihr.2 h
        exact ⟨(name, .some t) :: fs, by simp [recaptureFields, ht, hfs], by simp [hnames]⟩

end

/-! ## C1: the round-trip law -/

/-- C1 (amended): for every tree that contains no `Error` node and is
*conformant* — no `Struct`/`StructVariant` node has duplicate field names and
no `I128`/`U128` leaf occurs (conditions every tree captured by this
serializer satisfies by construction) — re-capturing it with this crate's own
serializer reproduces the original call sequence and yields a structurally
equal tree, under any configuration; and for every conformant tree that does
contain a `Save.Error` node, re-serializing it under the short-circuiting
discipline fails with an error carrying the stored message of the first such
node in traversal order, with `is_protocol` false (the message is re-wrapped
by `Error::custom`). -/
theorem claim_C1 :
    (∀ (s : Save Error) (cfg : Config), NoErrorB s = true → ConformantB s = true →
      recapture PersistD cfg Error.msg s = .ok s)
    ∧ (∀ (s : Save Error) (cfg : Config) (e : Error), ConformantB s = true →
      firstError s = .some e →
      recapture ShortCircuitD cfg Error.msg s = .error ⟨e.msg, false⟩) :=
  ⟨fun s cfg h1 h2 => rt_persist s h1 h2 cfg,
   fun s cfg e h2 hf => (sc_recapture s h2 cfg).1 e hf⟩

/-- Counterexample to C1 as stated: a tree that *is* produced by this
serializer (capturing, with protocol checks disabled, a producer that pushes
the field name "a" twice) and contains no `Error` node, yet re-capturing it
with this crate's own default serializer does not reproduce it — the
re-applied duplicate-name protocol check fails instead. Additionally, an
`I128` leaf (constructible via `From<i128>`) contains no `Error` node but
re-serializes to serde's default `serialize_i128` failure. -/
theorem claim_C1_cex :
    run ShortCircuitD ⟨true, false⟩
        (.strukt "S" 2 [("a", .some .unit), ("a", .some .unit)]) =
      .ok (.Struct "S" [("a", .some .Unit), ("a", .some .Unit)])
    ∧ NoErrorB (Save.Struct "S" [("a", .some .Unit), ("a", .some .Unit)] :
        Save ShortCircuitD.SaveError) = true
    ∧ recapture ShortCircuitD Serializer.new (fun e => e.elim)
        (Save.Struct "S" [("a", .some .Unit), ("a", .some .Unit)] : Save Empty) =
      .error ⟨"protocol error: struct has duplicate field names: a", true⟩
    ∧ NoErrorB (Save.I128 5 : Save Error) = true
    ∧ recapture ShortCircuitD Serializer.new Error.msg (Save.I128 5) =
      .error ⟨"i128 is not supported", false⟩ :=
  ⟨rfl, rfl, rfl, rfl, rfl⟩

/-- Witness for C1 at concrete inputs: a conformant error-free struct tree
round-trips exactly; a lone protocol-flagged error node re-serializes to a
plain failure carrying its message. -/
theorem claim_C1_wit :
    recapture PersistD Serializer.new Error.msg
        (.Struct "S" [("a", .some .Unit), ("b", .none)]) =
      .ok (.Struct "S" [("a", .some .Unit), ("b", .none)])
    ∧ recapture ShortCircuitD Serializer.new Error.msg (.Error ⟨"m", true⟩) =
      .error ⟨"m", false⟩ :=
  ⟨claim_C1.1 (.Struct "S" [("a", .some .Unit), ("b", .none)]) Serializer.new rfl rfl,
   claim_C1.2 (.Error ⟨"m", true⟩) Serializer.new ⟨"m", true⟩ rfl rfl⟩

end SerdeSave
